import Mathlib

/-!
Shallow embedding of `src/AbstractJSONRPC.ts` (GDJiaMi/jsonrpc-electron):
a JSON-RPC correlation engine for Electron IPC.  Targets, sendables and
application values are opaque to the engine, so they are modelled as natural
numbers; JS strings produced by numeric template interpolation are modelled
as their decimal digit lists.
-/

namespace JSONRPC

/-- Modelled from the spec: `JSONRPCErrorCode` lives in `src/type.ts`,
which is not among the provided sources; the spec enumerates the codes
`NotFound`, `Timeout`, `TargetReleased`, `UnKnown`. -/
inductive JSONRPCErrorCode where
  | notFound
  | timeout
  | targetReleased
  | unKnown
deriving DecidableEq, Repr

/-- Opaque caller-supplied destination identifier (`JSONRPCTarget`). -/
abbrev Target := Nat

/-- Identity token of a resolved transport endpoint (`Sendable.id`). -/
abbrev SendableId := Nat

/-- Opaque application data carried in `params` / `result`. -/
abbrev Value := Nat

/-- A resolved transport capability (`Sendable` from `src/type.ts`):
carries a comparable identity; the one-way `send` is modelled as effects. -/
structure Sendable where
  id : SendableId
deriving DecidableEq, Repr

/-- Result of the abstract `getSendable` transport binding: it may return a
Sendable, return `undefined`, or throw. -/
inductive ResolveResult where
  | ok (s : Sendable)
  | missing
  | throws
deriving DecidableEq, Repr

/-- The subclass-provided `getSendable`. -/
abbrev Resolver := Target → ResolveResult

/-- `AbstractJSONRPC.getSender`: calls `getSendable` inside try/catch;
a throw is logged and becomes `undefined` (lines 612-623). -/
def getSender (resolve : Resolver) (t : Target) : Option Sendable :=
  match resolve t with
  | .ok s => some s
  | .missing => none
  | .throws => none

/- ### C1: per-call settlement state machine

The closure state created by `AbstractJSONRPC.send` for a non-event call
(lines 343-389): `resolved` is the local mutual-exclusion flag, `timerActive`
tracks the pending `setTimeout`, `entryPresent` tracks `this.responder[id]`,
`settleCount` counts invocations of the user callback, and `warnings` counts
the `console.warn` for responses whose id has no correlation entry
(lines 464-484). -/

structure CallState where
  resolved : Bool
  timerActive : Bool
  entryPresent : Bool
  settleCount : Nat
  warnings : Nat
deriving DecidableEq, Repr

/-- State right after `send` registered the correlation entry: a timer is
pending exactly when the timeout was enabled. -/
def initCall (timeoutEnabled : Bool) : CallState :=
  { resolved := false, timerActive := timeoutEnabled, entryPresent := true,
    settleCount := 0, warnings := 0 }

/-- The `setTimeout` callback (lines 352-368): only runs while the timer is
pending; if already resolved it returns, otherwise it settles with a
`Timeout` error and deletes the correlation entry. -/
def fireTimer (s : CallState) : CallState :=
  if s.timerActive then
    if s.resolved then { s with timerActive := false }
    else { s with timerActive := false, resolved := true,
                  settleCount := s.settleCount + 1, entryPresent := false }
  else s

/-- The wrapped callback stored in `this.responder[id]` (lines 372-381):
ignores the call when already resolved, otherwise marks resolved, cancels
the timer and invokes the user callback. -/
def wrappedCallback (s : CallState) : CallState :=
  if s.resolved then s
  else { s with resolved := true, timerActive := false,
                settleCount := s.settleCount + 1 }

/-- `handleRPCResponse` for this call's id (lines 464-484): with no
correlation entry the response is logged and dropped; otherwise the stored
callback runs and the entry is deleted. -/
def receiveResponse (s : CallState) : CallState :=
  if s.entryPresent then { wrappedCallback s with entryPresent := false }
  else { s with warnings := s.warnings + 1 }

/-- The two asynchronous events that can settle a pending call. -/
inductive StepKind where
  | timer
  | response
deriving DecidableEq, Repr

def applyStep : StepKind → CallState → CallState
  | .timer, s => fireTimer s
  | .response, s => receiveResponse s

def applySteps : List StepKind → CallState → CallState
  | [], s => s
  | k :: ks, s => applySteps ks (applyStep k s)

/-- Settlement invariant: the user callback has run exactly once iff the
call is marked resolved. -/
def SettleInv (s : CallState) : Prop :=
  s.settleCount = if s.resolved then 1 else 0

theorem settleInv_applyStep (k : StepKind) (s : CallState) (h : SettleInv s) :
    SettleInv (applyStep k s) := by
  cases k with
  | timer =>
    simp only [applyStep, fireTimer]
    by_cases ht : s.timerActive
    · by_cases hr : s.resolved
      · simpa [SettleInv, ht, hr] using h
      · simpa [SettleInv, ht, hr] using h
    · simpa [SettleInv, ht] using h
  | response =>
    simp only [applyStep, receiveResponse, wrappedCallback]
    by_cases he : s.entryPresent
    · by_cases hr : s.resolved
      · simpa [SettleInv, he, hr] using h
      · simpa [SettleInv, he, hr] using h
    · simpa [SettleInv, he] using h

theorem settleInv_applySteps (l : List StepKind) (s : CallState)
    (h : SettleInv s) : SettleInv (applySteps l s) := by
  induction l generalizing s with
  | nil => exact h
  | cons k ks ih => exact ih _ (settleInv_applyStep k s h)

theorem settleInv_initCall (te : Bool) : SettleInv (initCall te) := by
  simp [SettleInv, initCall]

theorem settleCount_le_one (te : Bool) (l : List StepKind) :
    (applySteps l (initCall te)).settleCount ≤ 1 := by
  have h := settleInv_applySteps l (initCall te) (settleInv_initCall te)
  unfold SettleInv at h
  rw [h]
  by_cases hr : (applySteps l (initCall te)).resolved <;> simp [hr]

/-- C1.  For every pending call, settlement is exactly-once: any
interleaving of timer firings and response arrivals invokes the user
callback at most once; the first settling event (response, or timer when
enabled) invokes it exactly once, cancels the other path and removes the
correlation entry, so the late path is a no-op (a late response only logs a
warning); a response whose id has no correlation entry is logged and
dropped, leaving the call state otherwise unchanged (and, the model being a
total function, never raises). -/
theorem settlement_exactly_once (te : Bool) (l : List StepKind) :
    (applySteps l (initCall te)).settleCount ≤ 1
    ∧ (receiveResponse (initCall te)).settleCount = 1
    ∧ (receiveResponse (initCall te)).timerActive = false
    ∧ (receiveResponse (initCall te)).entryPresent = false
    ∧ fireTimer (receiveResponse (initCall te)) = receiveResponse (initCall te)
    ∧ (fireTimer (initCall true)).settleCount = 1
    ∧ (fireTimer (initCall true)).entryPresent = false
    ∧ receiveResponse (fireTimer (initCall true))
        = { fireTimer (initCall true) with
            warnings := (fireTimer (initCall true)).warnings + 1 }
    ∧ ((applySteps l (initCall te)).entryPresent = false →
        receiveResponse (applySteps l (initCall te))
          = { applySteps l (initCall te) with
              warnings := (applySteps l (initCall te)).warnings + 1 }) := by
  refine ⟨settleCount_le_one te l, ?_, ?_, ?_, ?_, ?_, ?_, ?_, ?_⟩
  · simp [receiveResponse, initCall, wrappedCallback]
  · simp [receiveResponse, initCall, wrappedCallback]
  · simp [receiveResponse, initCall, wrappedCallback]
  · simp [receiveResponse, initCall, wrappedCallback, fireTimer]
  · simp [fireTimer, initCall]
  · simp [fireTimer, initCall]
  · simp [receiveResponse, fireTimer, initCall]
  · intro h
    simp [receiveResponse, h]

/-- Witness for `settlement_exactly_once`: after the timeout fires, the
correlation entry is gone and a late response only logs a warning. -/
theorem settlement_exactly_once_witness :
    (applySteps [StepKind.timer] (initCall true)).entryPresent = false
    ∧ receiveResponse (applySteps [StepKind.timer] (initCall true))
        = { applySteps [StepKind.timer] (initCall true) with
            warnings := (applySteps [StepKind.timer] (initCall true)).warnings + 1 } := by
  refine ⟨by decide, ?_⟩
  exact (settlement_exactly_once true [StepKind.timer]).2.2.2.2.2.2.2.2 (by decide)

/- ### Engine state, id generation, timeouts, outbound scheduling

`send` (lines 305-392), `getId` (lines 625-631), `scheduleRequest`
(lines 562-580) and `flushQueue` (lines 594-610). -/

/-- `Number.MAX_SAFE_INTEGER`. -/
def maxSafeInteger : Nat := 2 ^ 53 - 1

/-- The decimal numeral of a natural number, most significant digit first —
the digit-list model of the JS string `${n}`. -/
def numeral (n : Nat) : List Nat :=
  if n = 0 then [0] else (Nat.digits 10 n).reverse

/-- `AbstractJSONRPC.getId` (lines 625-631): increments `uid` modulo
`Number.MAX_SAFE_INTEGER` and string-concatenates it with `Date.now()`.
Returns the new `uid` and the id string (as a digit list). -/
def getId (uid now : Nat) : Nat × List Nat :=
  ((uid + 1) % maxSafeInteger, numeral ((uid + 1) % maxSafeInteger) ++ numeral now)

/-- JS numbers as used by the `timeout` argument: a finite integer or
`Infinity` (`NaN` and non-integral values are not used by the code paths
modelled here). -/
inductive JSNum where
  | fin (x : Int)
  | inf
deriving DecidableEq, Repr

/-- Modelled from the spec: `DEFAULT_TIMEOUT` lives in `src/constants.ts`,
which is not among the provided sources; the doc comment of `callHandler`
(line 203) states the default timeout is 300000. -/
def DEFAULT_TIMEOUT : JSNum := .fin 300000

/-- Modelled from the spec: `RPC_SEND_CHANNEL` lives in `src/constants.ts`
(not provided); it is an opaque channel name. -/
def RPC_SEND_CHANNEL : String := "RPC_SEND_CHANNEL"

/-- Modelled from the spec: `RPC_RECEIVE_CHANNEL` lives in
`src/constants.ts` (not provided); it is an opaque channel name. -/
def RPC_RECEIVE_CHANNEL : String := "RPC_RECEIVE_CHANNEL"

/-- `timeout || DEFAULT_TIMEOUT` (line 347): `undefined` and the falsy
number `0` fall back to the default; every other value is kept. -/
def jsOrDefault (t : Option JSNum) : JSNum :=
  match t with
  | none => DEFAULT_TIMEOUT
  | some (.fin 0) => DEFAULT_TIMEOUT
  | some v => v

/-- `_timeout > 0 && _timeout !== Infinity` (line 348). -/
def timeoutEnabled (t : JSNum) : Bool :=
  match t with
  | .fin x => 0 < x
  | .inf => false

/-- A `JSONRPCRequest` or `JSONRPCEvent` envelope: an Event is exactly an
envelope whose `id` is absent. -/
structure RPCPayload where
  method : String
  id : Option (List Nat)
  params : Value
deriving DecidableEq, Repr

/-- Modelled from the spec: `isEvent` lives in `src/utils.ts` (not
provided); per the spec an Event envelope is one that carries no id. -/
def isEvent (p : RPCPayload) : Bool :=
  p.id.isNone

/-- A correlation entry (`Responder` minus its callback closure, which the
per-call machine `CallState` models). -/
structure Responder where
  name : String
  args : Value
deriving DecidableEq, Repr

/-- One entry of `scheduleQueue[id]`: the `arguments` tuple
`(channel, sendable, payload)` pushed at line 571. -/
structure QueuedItem where
  channel : String
  sendable : Sendable
  payload : RPCPayload
deriving DecidableEq, Repr

/-- Mutable state of an `AbstractJSONRPC` instance (the fields the modelled
operations touch: `uid`, `responder`, `queueTick`, `scheduleQueue`).
`responder` and `scheduleQueue` are JS objects, modelled as
insertion-ordered association lists. -/
structure Engine where
  uid : Nat
  responder : List (List Nat × Responder)
  queueTick : Nat
  scheduleQueue : List (SendableId × List QueuedItem)
deriving DecidableEq, Repr

/-- A fresh engine. -/
def Engine.initial : Engine :=
  { uid := 0, responder := [], queueTick := 0, scheduleQueue := [] }

/-- What `beforeSend`/`flushQueue` hand to the transport: either one
envelope unchanged, or a batch array of envelopes. -/
inductive OutPayload where
  | one (p : RPCPayload)
  | batch (ps : List RPCPayload)
deriving DecidableEq, Repr

/-- One invocation of `beforeSend` (the transport boundary). -/
structure TransportSend where
  dest : SendableId
  channel : String
  payload : OutPayload
deriving DecidableEq, Repr

/-- `this.scheduleQueue[id] = this.scheduleQueue[id] || []` followed by
`push` (lines 570-571), on an association list. -/
def pushQueue (q : List (SendableId × List QueuedItem)) (id : SendableId)
    (item : QueuedItem) : List (SendableId × List QueuedItem) :=
  match q with
  | [] => [(id, [item])]
  | (k, items) :: rest =>
    if k = id then (k, items ++ [item]) :: rest
    else (k, items) :: pushQueue rest id item

/-- Outcome of `scheduleRequest`: the updated engine, any immediate
transport send, and whether a flush was scheduled (`setTimeout(flushQueue)`
at line 574). -/
structure ScheduleOutcome where
  engine : Engine
  immediate : List TransportSend
  flushScheduled : Bool
deriving Repr

/-- `AbstractJSONRPC.scheduleRequest` (lines 562-580): an Event envelope is
queued per destination (scheduling a flush on the first enqueue of the
tick); anything carrying an id is sent immediately via `beforeSend`. -/
def scheduleRequest (eng : Engine) (channel : String) (sendable : Sendable)
    (payload : RPCPayload) : ScheduleOutcome :=
  if isEvent payload then
    { engine := { eng with
        scheduleQueue := pushQueue eng.scheduleQueue sendable.id
          { channel := channel, sendable := sendable, payload := payload },
        queueTick := eng.queueTick + 1 },
      immediate := [],
      flushScheduled := eng.queueTick = 0 }
  else
    { engine := eng,
      immediate := [{ dest := sendable.id, channel := channel,
                      payload := .one payload }],
      flushScheduled := false }

/-- One iteration of the `for (const id in queue)` loop of `flushQueue`
(lines 599-609): a queue with more than one entry sends the ordered array
of its payloads in one message, otherwise the lone envelope is sent
unchanged. -/
def flushEntry (e : SendableId × List QueuedItem) : Option TransportSend :=
  match e.2 with
  | [] => none
  | [i] => some { dest := i.sendable.id, channel := i.channel,
                  payload := .one i.payload }
  | i :: i2 :: is => some { dest := i.sendable.id, channel := i.channel,
                            payload := .batch ((i :: i2 :: is).map (·.payload)) }

/-- `AbstractJSONRPC.flushQueue` (lines 594-610): resets the tick, swaps
the queue out, and per destination sends the lone envelope unchanged or the
ordered array of queued envelopes. -/
def flushQueue (eng : Engine) : Engine × List TransportSend :=
  ({ eng with queueTick := 0, scheduleQueue := [] },
   eng.scheduleQueue.filterMap flushEntry)

/-- Arguments of `AbstractJSONRPC.send`; `hasCallback = false` means the
`callback` argument was `null`/omitted, i.e. an event. -/
structure SendArgs where
  target : Target
  method : String
  params : Value
  hasCallback : Bool
  timeout : Option JSNum
deriving DecidableEq, Repr

/-- Outcome of `AbstractJSONRPC.send`. -/
structure SendOutcome where
  engine : Engine
  returned : Bool
  errorCallback : Option JSONRPCErrorCode
  timerStarted : Bool
  immediate : List TransportSend
  flushScheduled : Bool
deriving Repr

/-- `AbstractJSONRPC.send` (lines 305-392).  Note the order of operations:
`getId` runs (mutating `uid`) *before* the target is resolved; an
unresolved target invokes the callback with `TargetReleased` and returns
`false`; otherwise the timeout logic and correlation entry apply for
non-events, and the payload goes through `scheduleRequest`. -/
def send (resolve : Resolver) (eng : Engine) (a : SendArgs) (now : Nat) :
    SendOutcome :=
  let isEv := !a.hasCallback
  let idPair :=
    if isEv then (eng.uid, (none : Option (List Nat)))
    else ((getId eng.uid now).1, some (getId eng.uid now).2)
  let eng1 : Engine := { eng with uid := idPair.1 }
  let payload : RPCPayload :=
    { method := a.method, id := idPair.2, params := a.params }
  match getSender resolve a.target with
  | none =>
    { engine := eng1, returned := false,
      errorCallback := if isEv then none else some .targetReleased,
      timerStarted := false, immediate := [], flushScheduled := false }
  | some sendable =>
    let te := if isEv then false else timeoutEnabled (jsOrDefault a.timeout)
    let eng2 : Engine :=
      if isEv then eng1
      else { eng1 with responder := eng1.responder ++
               [(idPair.2.getD [], { name := a.method, args := a.params })] }
    let r := scheduleRequest eng2 RPC_SEND_CHANNEL sendable payload
    { engine := r.engine, returned := true,
      errorCallback := none,
      timerStarted := te, immediate := r.immediate,
      flushScheduled := r.flushScheduled }

/-- `AbstractJSONRPC.emit` (lines 128-130): `send` with no callback. -/
def emit (resolve : Resolver) (eng : Engine) (target : Target)
    (method : String) (params : Value) : SendOutcome :=
  send resolve eng
    { target := target, method := method, params := params,
      hasCallback := false, timeout := none } 0

/-- A resolver under which every target is released. -/
def resolveNone : Resolver := fun _ => .missing

/-- A resolver under which every target resolves to the endpoint with
identity 1. -/
def resolveOne : Resolver := fun _ => .ok { id := 1 }

/-- C2 counterexample.  A call to an unresolved target still allocates a
request id: `getId` runs (and increments the `uid` counter) before the
target is resolved, so the id counter is *not* unchanged. -/
theorem send_unresolved_increments_uid :
    (send resolveNone Engine.initial
      { target := 0, method := "m", params := 0,
        hasCallback := true, timeout := none } 0).engine.uid
      ≠ Engine.initial.uid := by
  decide

/-- C2 (amended).  For every call whose target does not resolve to a
Sendable (including when resolution throws), the call fails immediately
with a `TargetReleased` error, no timeout timer is started, no correlation
entry is registered, and nothing reaches the transport (no immediate send,
no enqueue, no flush scheduled) — but the request id *is* allocated
eagerly: the `uid` counter is incremented (mod `Number.MAX_SAFE_INTEGER`)
before resolution. -/
theorem send_unresolved_fails_fast (resolve : Resolver) (eng : Engine)
    (a : SendArgs) (now : Nat) (hcb : a.hasCallback = true)
    (hres : getSender resolve a.target = none) :
    (send resolve eng a now).returned = false
    ∧ (send resolve eng a now).errorCallback = some .targetReleased
    ∧ (send resolve eng a now).timerStarted = false
    ∧ (send resolve eng a now).engine.responder = eng.responder
    ∧ (send resolve eng a now).immediate = []
    ∧ (send resolve eng a now).flushScheduled = false
    ∧ (send resolve eng a now).engine.scheduleQueue = eng.scheduleQueue
    ∧ (send resolve eng a now).engine.uid = (eng.uid + 1) % maxSafeInteger := by
  simp [send, hcb, hres, getId]

/-- Witness for `send_unresolved_fails_fast` at a concrete released
target. -/
theorem send_unresolved_fails_fast_witness :
    ({ target := 0, method := "m", params := 0, hasCallback := true,
       timeout := none } : SendArgs).hasCallback = true
    ∧ getSender resolveNone 0 = none
    ∧ (send resolveNone Engine.initial
        { target := 0, method := "m", params := 0,
          hasCallback := true, timeout := none } 0).engine.uid
        = (Engine.initial.uid + 1) % maxSafeInteger :=
  ⟨rfl, rfl,
    (send_unresolved_fails_fast resolveNone Engine.initial
      { target := 0, method := "m", params := 0,
        hasCallback := true, timeout := none } 0 rfl rfl).2.2.2.2.2.2.2⟩

/-- C3 counterexample.  A call with `timeout = 0` does *not* disable
expiry: `timeout || DEFAULT_TIMEOUT` treats the falsy `0` like an omitted
argument, the default timeout applies, and a timer is started. -/
theorem timer_started_for_zero_timeout :
    (send resolveOne Engine.initial
      { target := 0, method := "m", params := 0,
        hasCallback := true, timeout := some (.fin 0) } 0).timerStarted
      = true := by
  decide

/-- C3 (amended).  For every call, a timeout timer is started exactly when
the effective timeout `timeout || DEFAULT_TIMEOUT` is positive and finite.
When the timeout argument is omitted the default applies; a timeout of `0`
is falsy and therefore *also* falls back to the default (it does not
disable expiry); `Infinity` (or any non-positive value) disables expiry. -/
theorem timer_start_characterization (resolve : Resolver) (eng : Engine)
    (a : SendArgs) (now : Nat) (s : Sendable) (hcb : a.hasCallback = true)
    (hres : getSender resolve a.target = some s) :
    (send resolve eng a now).timerStarted
      = timeoutEnabled (jsOrDefault a.timeout)
    ∧ jsOrDefault none = DEFAULT_TIMEOUT
    ∧ jsOrDefault (some (.fin 0)) = DEFAULT_TIMEOUT
    ∧ timeoutEnabled DEFAULT_TIMEOUT = true
    ∧ timeoutEnabled .inf = false
    ∧ (∀ x : Int, timeoutEnabled (.fin x) = decide (0 < x)) := by
  refine ⟨?_, rfl, rfl, by decide, rfl, fun x => rfl⟩
  simp [send, hcb, hres]

/-- Witness for `timer_start_characterization` at a concrete resolved
target with `timeout = Infinity` (timer disabled). -/
theorem timer_start_characterization_witness :
    ({ target := 0, method := "m", params := 0, hasCallback := true,
       timeout := some .inf } : SendArgs).hasCallback = true
    ∧ getSender resolveOne 0 = some { id := 1 }
    ∧ (send resolveOne Engine.initial
        { target := 0, method := "m", params := 0,
          hasCallback := true, timeout := some .inf } 0).timerStarted
        = timeoutEnabled (jsOrDefault (some .inf)) :=
  ⟨rfl, rfl,
    (timer_start_characterization resolveOne Engine.initial
      { target := 0, method := "m", params := 0,
        hasCallback := true, timeout := some .inf } 0 { id := 1 }
      rfl rfl).1⟩

/- ### C4: outbound event batching -/

/-- The queued items for destination `d` (`queue[d] || []`). -/
def queueItems (q : List (SendableId × List QueuedItem)) (d : SendableId) :
    List QueuedItem :=
  ((q.find? fun e => e.1 == d).map (·.2)).getD []

/-- Well-formedness of the schedule queue, maintained by construction:
keys are distinct, every bucket is nonempty, and every queued item sits in
the bucket of its sendable's identity. -/
def WFQueue (q : List (SendableId × List QueuedItem)) : Prop :=
  (q.map (·.1)).Nodup ∧ ∀ e ∈ q, e.2 ≠ [] ∧ ∀ i ∈ e.2, i.sendable.id = e.1

/-- Run a list of `emit` calls (target, method, params) in order. -/
def runEmits (resolve : Resolver) (eng : Engine) :
    List (Target × String × Value) → Engine
  | [] => eng
  | e :: es => runEmits resolve (emit resolve eng e.1 e.2.1 e.2.2).engine es

/-- Spec-side description: the Event envelopes that the `emit` calls in
`emits` address to the destination with identity `d`, in emit order. -/
def emittedTo (resolve : Resolver) (emits : List (Target × String × Value))
    (d : SendableId) : List RPCPayload :=
  emits.filterMap fun e =>
    match getSender resolve e.1 with
    | some s =>
      if s.id = d then
        some { method := e.2.1, id := none, params := e.2.2 }
      else none
    | none => none

/-- The queued items that the `emit` calls in `emits` push into bucket
`d`. -/
def emittedItems (resolve : Resolver)
    (emits : List (Target × String × Value)) (d : SendableId) :
    List QueuedItem :=
  emits.filterMap fun e =>
    match getSender resolve e.1 with
    | some s =>
      if s.id = d then
        some { channel := RPC_SEND_CHANNEL, sendable := s,
               payload := { method := e.2.1, id := none, params := e.2.2 } }
      else none
    | none => none

/-- Spec-side description of the flush output for one destination: nothing
if nothing was enqueued, the bare envelope if exactly one was, the ordered
batch array if more than one was. -/
def batchedSendsSpec (d : SendableId) (ps : List RPCPayload) :
    List TransportSend :=
  match ps with
  | [] => []
  | [p] => [{ dest := d, channel := RPC_SEND_CHANNEL, payload := .one p }]
  | p :: p2 :: rest =>
    [{ dest := d, channel := RPC_SEND_CHANNEL,
       payload := .batch (p :: p2 :: rest) }]

theorem queueItems_cons (k : SendableId) (items : List QueuedItem)
    (rest : List (SendableId × List QueuedItem)) (d : SendableId) :
    queueItems ((k, items) :: rest) d
      = if k = d then items else queueItems rest d := by
  by_cases h : k = d
  · simp [queueItems, List.find?_cons_of_pos, h]
  · simp only [queueItems, h, if_false]
    rw [List.find?_cons_of_neg]
    simp [h]

theorem queueItems_pushQueue (q : List (SendableId × List QueuedItem))
    (id : SendableId) (item : QueuedItem) (d : SendableId) :
    queueItems (pushQueue q id item) d
      = if id = d then queueItems q d ++ [item] else queueItems q d := by
  induction q with
  | nil =>
    by_cases h : id = d <;> simp [pushQueue, queueItems, h]
  | cons e rest ih =>
    obtain ⟨k, items⟩ := e
    by_cases hk : k = id
    · subst hk
      simp only [pushQueue, if_pos rfl]
      by_cases hd : k = d
      · simp [queueItems_cons, hd]
      · simp [queueItems_cons, hd]
    · simp only [pushQueue, if_neg hk]
      by_cases hd : k = d
      · subst hd
        have hid : id ≠ k := fun h => hk h.symm
        simp [queueItems_cons, if_neg hid]
      · simp [queueItems_cons, hd, ih]

theorem pushQueue_keys (q : List (SendableId × List QueuedItem))
    (id : SendableId) (item : QueuedItem) :
    (pushQueue q id item).map (·.1)
      = if id ∈ q.map (·.1) then q.map (·.1) else q.map (·.1) ++ [id] := by
  induction q with
  | nil => simp [pushQueue]
  | cons e rest ih =>
    obtain ⟨k, items⟩ := e
    by_cases hk : k = id
    · subst hk
      simp [pushQueue]
    · simp only [pushQueue, if_neg hk, List.map_cons, List.mem_cons]
      have hne : ¬id = k := fun h => hk h.symm
      by_cases hmem : id ∈ rest.map (·.1)
      · simp [hne, hmem, ih]
      · simp [hne, hmem, ih]

theorem pushQueue_entries (q : List (SendableId × List QueuedItem))
    (id : SendableId) (item : QueuedItem)
    (hq : ∀ e ∈ q, e.2 ≠ [] ∧ ∀ i ∈ e.2, i.sendable.id = e.1)
    (hitem : item.sendable.id = id) :
    ∀ e ∈ pushQueue q id item, e.2 ≠ [] ∧ ∀ i ∈ e.2, i.sendable.id = e.1 := by
  induction q with
  | nil =>
    intro e he
    simp only [pushQueue, List.mem_singleton] at he
    subst he
    exact ⟨by simp, by simpa using hitem⟩
  | cons e0 rest ih =>
    obtain ⟨k, items⟩ := e0
    intro e he
    by_cases hk : k = id
    · subst hk
      rw [pushQueue, if_pos rfl] at he
      rcases List.mem_cons.1 he with he | he
      · subst he
        refine ⟨by simp, ?_⟩
        intro i hi
        rcases List.mem_append.1 hi with hi | hi
        · exact (hq (k, items) (by simp)).2 i hi
        · simp only [List.mem_singleton] at hi
          subst hi
          exact hitem
      · exact hq e (List.mem_cons_of_mem _ he)
    · rw [pushQueue, if_neg hk] at he
      rcases List.mem_cons.1 he with he | he
      · subst he
        exact hq (k, items) (by simp)
      · exact ih (fun e' he' => hq e' (List.mem_cons_of_mem _ he')) e he

theorem WFQueue_pushQueue (q : List (SendableId × List QueuedItem))
    (id : SendableId) (item : QueuedItem) (hq : WFQueue q)
    (hitem : item.sendable.id = id) : WFQueue (pushQueue q id item) := by
  obtain ⟨hnodup, hentries⟩ := hq
  constructor
  · rw [pushQueue_keys]
    by_cases hmem : id ∈ q.map (·.1)
    · simpa [hmem] using hnodup
    · simp only [hmem, if_false]
      rw [List.nodup_append]
      exact ⟨hnodup, List.nodup_singleton id, by simpa using fun h => hmem h⟩
  · exact pushQueue_entries q id item hentries hitem

theorem flushEntry_dest (e : SendableId × List QueuedItem)
    (hne : e.2 ≠ []) (hid : ∀ i ∈ e.2, i.sendable.id = e.1)
    (s : TransportSend) (hs : flushEntry e = some s) : s.dest = e.1 := by
  obtain ⟨k, items⟩ := e
  match items with
  | [] => exact absurd rfl hne
  | [i] =>
    simp only [flushEntry, Option.some_inj] at hs
    subst hs
    exact hid i (by simp)
  | i :: i2 :: is =>
    simp only [flushEntry, Option.some_inj] at hs
    subst hs
    exact hid i (by simp)

theorem flush_filter_of_not_mem (q : List (SendableId × List QueuedItem))
    (hWF : WFQueue q) (d : SendableId) (hd : d ∉ q.map (·.1)) :
    (q.filterMap flushEntry).filter (fun s => s.dest == d) = [] := by
  rw [List.filter_eq_nil_iff]
  intro s hs
  rcases List.mem_filterMap.1 hs with ⟨e, he, hse⟩
  have hdest := flushEntry_dest e (hWF.2 e he).1 (hWF.2 e he).2 s hse
  have : s.dest ∈ q.map (·.1) := hdest ▸ List.mem_map_of_mem (·.1) he
  simp only [beq_iff_eq]
  intro hcontra
  exact hd (hcontra ▸ this)

theorem flush_filter_eq (q : List (SendableId × List QueuedItem))
    (hWF : WFQueue q) (d : SendableId)
    (hch : ∀ i ∈ queueItems q d, i.channel = RPC_SEND_CHANNEL) :
    (q.filterMap flushEntry).filter (fun s => s.dest == d)
      = batchedSendsSpec d ((queueItems q d).map (·.payload)) := by
  induction q with
  | nil => simp [queueItems, batchedSendsSpec]
  | cons e rest ih =>
    obtain ⟨k, items⟩ := e
    have hWFrest : WFQueue rest :=
      ⟨(List.nodup_cons.1 hWF.1).2,
       fun e' he' => hWF.2 e' (List.mem_cons_of_mem _ he')⟩
    have hitems := hWF.2 (k, items) (by simp)
    by_cases hkd : k = d
    · subst hkd
      have hdrest : k ∉ rest.map (·.1) := (List.nodup_cons.1 hWF.1).1
      have hrest0 := flush_filter_of_not_mem rest hWFrest k hdrest
      have hQI : queueItems ((k, items) :: rest) k = items := by
        simp [queueItems_cons]
      rw [hQI] at hch
      match items, hitems with
      | [i], hitems =>
        have hdi : i.sendable.id = k := hitems.2 i (by simp)
        simp only [List.filterMap_cons, flushEntry]
        rw [List.filter_cons]
        simp only [hdi, beq_self_eq_true, if_pos]
        rw [hrest0, hQI]
        simp [batchedSendsSpec, hch i (by simp), hdi]
      | i :: i2 :: is, hitems =>
        have hdi : i.sendable.id = k := hitems.2 i (by simp)
        simp only [List.filterMap_cons, flushEntry]
        rw [List.filter_cons]
        simp only [hdi, beq_self_eq_true, if_pos]
        rw [hrest0, hQI]
        simp [batchedSendsSpec, hch i (by simp), hdi]
    · have hQI : queueItems ((k, items) :: rest) d = queueItems rest d := by
        simp [queueItems_cons, hkd]
      rw [hQI] at hch ⊢
      have hstep : (((k, items) :: rest).filterMap flushEntry).filter
          (fun s => s.dest == d)
          = (rest.filterMap flushEntry).filter (fun s => s.dest == d) := by
        simp only [List.filterMap_cons]
        match items, hitems with
        | [i], hitems =>
          have hdi : i.sendable.id = k := hitems.2 i (by simp)
          simp only [flushEntry]
          rw [List.filter_cons]
          simp [hdi, hkd]
        | i :: i2 :: is, hitems =>
          have hdi : i.sendable.id = k := hitems.2 i (by simp)
          simp only [flushEntry]
          rw [List.filter_cons]
          simp [hdi, hkd]
      rw [hstep, ih hWFrest hch]

theorem emit_scheduleQueue_none (resolve : Resolver) (eng : Engine)
    (t : Target) (m : String) (p : Value)
    (hres : getSender resolve t = none) :
    (emit resolve eng t m p).engine.scheduleQueue = eng.scheduleQueue := by
  simp [emit, send, hres]

theorem emit_scheduleQueue_some (resolve : Resolver) (eng : Engine)
    (t : Target) (m : String) (p : Value) (s : Sendable)
    (hres : getSender resolve t = some s) :
    (emit resolve eng t m p).engine.scheduleQueue
      = pushQueue eng.scheduleQueue s.id
          { channel := RPC_SEND_CHANNEL, sendable := s,
            payload := { method := m, id := none, params := p } } := by
  simp [emit, send, hres, scheduleRequest, isEvent]

theorem runEmits_spec (resolve : Resolver)
    (emits : List (Target × String × Value)) :
    ∀ eng : Engine, WFQueue eng.scheduleQueue →
      WFQueue (runEmits resolve eng emits).scheduleQueue
      ∧ ∀ d, queueItems (runEmits resolve eng emits).scheduleQueue d
            = queueItems eng.scheduleQueue d ++ emittedItems resolve emits d := by
  induction emits with
  | nil =>
    intro eng h
    exact ⟨h, fun d => by simp [runEmits, emittedItems]⟩
  | cons e es ih =>
    intro eng h
    obtain ⟨t, m, p⟩ := e
    cases hres : getSender resolve t with
    | none =>
      have hq := emit_scheduleQueue_none resolve eng t m p hres
      have hrec := ih (emit resolve eng t m p).engine (hq ▸ h)
      refine ⟨hrec.1, fun d => ?_⟩
      rw [runEmits, hrec.2 d, hq]
      simp [emittedItems, List.filterMap_cons, hres]
    | some s =>
      have hq := emit_scheduleQueue_some resolve eng t m p s hres
      have hWFp : WFQueue (emit resolve eng t m p).engine.scheduleQueue := by
        rw [hq]
        exact WFQueue_pushQueue eng.scheduleQueue s.id _ h rfl
      have hrec := ih (emit resolve eng t m p).engine hWFp
      refine ⟨hrec.1, fun d => ?_⟩
      rw [runEmits, hrec.2 d, hq, queueItems_pushQueue]
      by_cases hd : s.id = d
      · simp [emittedItems, List.filterMap_cons, hres, hd, List.append_assoc]
      · simp [emittedItems, List.filterMap_cons, hres, hd]

theorem emittedItems_channel (resolve : Resolver)
    (emits : List (Target × String × Value)) (d : SendableId) :
    ∀ i ∈ emittedItems resolve emits d, i.channel = RPC_SEND_CHANNEL := by
  intro i hi
  rcases List.mem_filterMap.1 hi with ⟨a, _, ha⟩
  split at ha
  · split at ha
    · cases ha
      rfl
    · cases ha
  · cases ha

theorem emittedItems_map_payload (resolve : Resolver)
    (emits : List (Target × String × Value)) (d : SendableId) :
    (emittedItems resolve emits d).map (·.payload)
      = emittedTo resolve emits d := by
  rw [emittedItems, emittedTo, List.map_filterMap]
  congr 1
  funext a
  cases hres : getSender resolve a.1 with
  | none => simp
  | some s =>
    by_cases hid : s.id = d
    · simp [hid]
    · simp [hid]

/-- C4.  For every destination `d`: flushing the queue built by any
sequence of `emit` calls produces exactly the sends `batchedSendsSpec`
prescribes for `d` — no send if nothing was enqueued for `d`, the bare
Event envelope (not array-wrapped) if exactly one was, and a single send
whose payload is the array of the individual Event envelopes in emit order
if more than one was; and an envelope carrying an id never enters the
queue: `scheduleRequest` passes it to the transport immediately and leaves
the engine untouched. -/
theorem flush_batches_per_destination (resolve : Resolver)
    (emits : List (Target × String × Value)) (d : SendableId) :
    ((flushQueue (runEmits resolve Engine.initial emits)).2.filter
        (fun s => s.dest == d))
      = batchedSendsSpec d (emittedTo resolve emits d)
    ∧ (∀ (eng : Engine) (ch : String) (sb : Sendable) (p : RPCPayload),
        p.id.isSome = true →
          scheduleRequest eng ch sb p
            = { engine := eng,
                immediate := [{ dest := sb.id, channel := ch,
                                payload := .one p }],
                flushScheduled := false }) := by
  constructor
  · have hWF0 : WFQueue (Engine.initial : Engine).scheduleQueue :=
      ⟨List.nodup_nil, by simp [Engine.initial]⟩
    have hrun := runEmits_spec resolve emits Engine.initial hWF0
    have hQI : queueItems (runEmits resolve Engine.initial emits).scheduleQueue d
        = emittedItems resolve emits d := by
      rw [hrun.2 d]
      simp [Engine.initial, queueItems]
    have hch : ∀ i ∈ queueItems
        (runEmits resolve Engine.initial emits).scheduleQueue d,
        i.channel = RPC_SEND_CHANNEL := by
      rw [hQI]
      exact emittedItems_channel resolve emits d
    have hmain := flush_filter_eq
      (runEmits resolve Engine.initial emits).scheduleQueue hrun.1 d hch
    rw [flushQueue]
    rw [hmain, hQI, emittedItems_map_payload]
  · intro eng ch sb p hp
    have hev : isEvent p = false := by
      rw [isEvent]
      cases hid : p.id with
      | none => rw [hid] at hp; cases hp
      | some v => rfl
    simp [scheduleRequest, hev]

/-- Witness for `flush_batches_per_destination`: a concrete id-carrying
envelope is sent immediately and bypasses the queue. -/
theorem flush_batches_per_destination_witness :
    ({ method := "m", id := some [1], params := 0 } : RPCPayload).id.isSome
      = true
    ∧ scheduleRequest Engine.initial "ch" { id := 3 }
        { method := "m", id := some [1], params := 0 }
        = { engine := Engine.initial,
            immediate := [{ dest := 3, channel := "ch",
                            payload := .one { method := "m", id := some [1],
                                              params := 0 } }],
            flushScheduled := false } :=
  ⟨rfl,
    (flush_batches_per_destination resolveOne [] 0).2 Engine.initial "ch"
      { id := 3 } { method := "m", id := some [1], params := 0 } rfl⟩

/- ### Registries: handlers and listeners (C5, C6, C9, C10) -/

/-- `AbstractJSONRPC.isTargetEqual` (lines 399-416): both `null` compare
equal, `null` against non-`null` compare unequal, and two non-`null`
targets compare equal exactly when both resolve and the resolved
identities coincide. -/
def isTargetEqual (resolve : Resolver) (a b : Option Target) : Bool :=
  match a, b with
  | none, none => true
  | none, some _ => false
  | some _, none => false
  | some x, some y =>
    match getSender resolve x, getSender resolve y with
    | some sa, some sb => sa.id == sb.id
    | _, _ => false

/-- `AbstractJSONRPC.isSenderMatchTarget` (lines 423-426): no target means
wildcard; otherwise the target must resolve and its identity must equal
the sender's. -/
def isSenderMatchTarget (resolve : Resolver) (a : Sendable)
    (target : Option Target) : Bool :=
  match target with
  | none => true
  | some t =>
    match getSender resolve t with
    | some s => s.id == a.id
    | none => false

/-- An entry of `this.handlers[method]`; the callback is an opaque
identifier. -/
structure HandlerEntry where
  target : Option Target
  callback : Nat
deriving DecidableEq, Repr

/-- An entry of `this.listeners[method]`. -/
structure ListenerEntry where
  target : Option Target
  callback : Nat
deriving DecidableEq, Repr

/-- `this.handlers`, an insertion-ordered map from method name to entry
list. -/
abbrev HandlerMap := List (String × List HandlerEntry)

/-- `this.listeners`. -/
abbrev ListenerRegistry := List (String × List ListenerEntry)

/-- `reg[method] || []`. -/
def methodList {α : Type} (reg : List (String × List α)) (m : String) :
    List α :=
  ((reg.find? fun e => e.1 == m).map (·.2)).getD []

/-- Append an entry to `reg[method]`, creating the key if absent
(JS object insertion order). -/
def insertMethod {α : Type} (reg : List (String × List α)) (m : String)
    (entry : α) : List (String × List α) :=
  match reg with
  | [] => [(m, [entry])]
  | (k, l) :: rest =>
    if k = m then (k, l ++ [entry]) :: rest
    else (k, l) :: insertMethod rest m entry

/-- Replace the entry list stored under `method`. -/
def updateMethod {α : Type} (reg : List (String × List α)) (m : String)
    (l : List α) : List (String × List α) :=
  reg.map fun e => if e.1 == m then (e.1, l) else e

/-- The scan loop of `getHandlerFor` (lines 440-447): a target-less entry
is remembered and the scan continues; a target-scoped entry matching the
sender returns immediately. -/
def getHandlerForGo (resolve : Resolver) (sender : Sendable) :
    List HandlerEntry → Option HandlerEntry → Option HandlerEntry
  | [], acc => acc
  | item :: rest, acc =>
    if item.target.isNone then getHandlerForGo resolve sender rest (some item)
    else if isSenderMatchTarget resolve sender item.target then some item
    else getHandlerForGo resolve sender rest acc

/-- `AbstractJSONRPC.getHandlerFor` (lines 428-450). -/
def getHandlerFor (resolve : Resolver) (handlers : HandlerMap) (m : String)
    (sender : Sendable) : Option HandlerEntry :=
  getHandlerForGo resolve sender (methodList handlers m) none

structure ErrorBody where
  code : JSONRPCErrorCode
  message : String
deriving DecidableEq, Repr

/-- A `JSONRPCResponseError` envelope. -/
structure JSONRPCResponseError where
  id : List Nat
  error : ErrorBody
deriving DecidableEq, Repr

/-- Outcome of the request branch of `handleRPCRequest`
(lines 511-523): either the `NotFound` error response sent back to the
sender, or the invocation of the selected handler's callback. -/
inductive RequestOutcome where
  | respondError (dest : SendableId) (channel : String)
      (res : JSONRPCResponseError)
  | invoke (cb : Nat)
deriving DecidableEq, Repr

/-- The request branch of `handleRPCRequest` (lines 511-523). -/
def handleRequestDispatch (resolve : Resolver) (handlers : HandlerMap)
    (sender : Sendable) (m : String) (id : List Nat) : RequestOutcome :=
  match getHandlerFor resolve handlers m sender with
  | none =>
    .respondError sender.id RPC_RECEIVE_CHANNEL
      { id := id,
        error := { code := .notFound,
                   message := "method " ++ m ++ " not found" } }
  | some h => .invoke h.callback

/-- Spec-side: the first target-scoped entry whose resolved identity
equals the sender's identity. -/
def firstScopedMatch (resolve : Resolver) (sender : Sendable)
    (entries : List HandlerEntry) : Option HandlerEntry :=
  entries.find? fun i =>
    i.target.isSome && isSenderMatchTarget resolve sender i.target

/-- Spec-side: the global (target-less) entry. -/
def globalEntry (entries : List HandlerEntry) : Option HandlerEntry :=
  entries.find? fun i => i.target.isNone

/-- The last target-less entry of the list — what the scan loop actually
leaves in its accumulator. -/
def lastGlobal (entries : List HandlerEntry) : Option HandlerEntry :=
  (entries.filter fun i => i.target.isNone).getLast?

/-- `AbstractJSONRPC.registerHandler` (lines 234-271): a global
registration conflicts with an existing global entry for the method; a
scoped registration conflicts with an existing entry of equal resolved
identity; a conflict throws (first component) before any mutation. -/
def registerHandler (resolve : Resolver) (handlers : HandlerMap)
    (m : String) (target : Option Target) (cb : Nat) :
    Option String × HandlerMap :=
  if target.isNone && (methodList handlers m).any (fun i => i.target.isNone) then
    (some ("[JSONRPC] registerHandler global " ++ m ++ " exists"), handlers)
  else if target.isSome
      && (methodList handlers m).any
           (fun i => isTargetEqual resolve target i.target) then
    (some ("[JSONRPC] registerHandler " ++ m ++ " exists"), handlers)
  else
    (none, insertMethod handlers m { target := target, callback := cb })

/-- `AbstractJSONRPC.unregisterHandler` (lines 277-290): removes the first
entry whose target equals (by resolved identity) the given target. -/
def unregisterHandler (resolve : Resolver) (handlers : HandlerMap)
    (m : String) (target : Option Target) : Bool × HandlerMap :=
  match (methodList handlers m).findIdx?
      (fun i => isTargetEqual resolve i.target target) with
  | some idx =>
    (true, updateMethod handlers m ((methodList handlers m).eraseIdx idx))
  | none => (false, handlers)

/-- `AbstractJSONRPC.off` (lines 161-172): removes the first entry whose
callback reference and target (by resolved identity) both match. -/
def off (resolve : Resolver) (reg : ListenerRegistry) (m : String)
    (cb : Nat) (target : Option Target) : Bool × ListenerRegistry :=
  match (methodList reg m).findIdx?
      (fun i => i.callback == cb && isTargetEqual resolve i.target target) with
  | some idx =>
    (true, updateMethod reg m ((methodList reg m).eraseIdx idx))
  | none => (false, reg)

/-- `AbstractJSONRPC.removeAllListener` (lines 177-196): no target clears
everything; with a target, every method's list keeps exactly the entries
whose target does not equal it. -/
def removeAllListener (resolve : Resolver) (reg : ListenerRegistry)
    (target : Option Target) : ListenerRegistry :=
  match target with
  | none => []
  | some t =>
    reg.map fun e =>
      (e.1, e.2.filter fun l => !isTargetEqual resolve (some t) l.target)

/-- The event branch of `handleRPCRequest` (lines 502-510): iterate over a
snapshot (`slice(0)`) of the method's listener list; each invoked callback
may mutate the registry (modelled by `mu`). Returns the final registry and
the invoked callbacks in order. -/
def dispatchGo (resolve : Resolver) (mu : Nat → ListenerRegistry → ListenerRegistry)
    (sender : Sendable) :
    List ListenerEntry → ListenerRegistry → List Nat →
      ListenerRegistry × List Nat
  | [], reg, acc => (reg, acc)
  | i :: rest, reg, acc =>
    if isSenderMatchTarget resolve sender i.target then
      dispatchGo resolve mu sender rest (mu i.callback reg) (acc ++ [i.callback])
    else dispatchGo resolve mu sender rest reg acc

/-- Event dispatch: snapshot the method's listener list, then run the
loop. -/
def dispatchEvent (resolve : Resolver)
    (mu : Nat → ListenerRegistry → ListenerRegistry) (reg : ListenerRegistry)
    (m : String) (sender : Sendable) : ListenerRegistry × List Nat :=
  dispatchGo resolve mu sender (methodList reg m) reg []

/-- Spec-side: a listener entry is invoked when its target is unset
(wildcard) or its resolved identity equals the sender's identity. -/
def matchesSenderSpec (resolve : Resolver) (sender : Sendable)
    (i : ListenerEntry) : Bool :=
  match i.target with
  | none => true
  | some t => (getSender resolve t).map (·.id) == some sender.id

theorem dispatchGo_invoked (resolve : Resolver)
    (mu : Nat → ListenerRegistry → ListenerRegistry) (sender : Sendable) :
    ∀ (l : List ListenerEntry) (reg : ListenerRegistry) (acc : List Nat),
      (dispatchGo resolve mu sender l reg acc).2
        = acc ++ (l.filter fun i =>
            isSenderMatchTarget resolve sender i.target).map (·.callback) := by
  intro l
  induction l with
  | nil => intro reg acc; simp [dispatchGo]
  | cons i rest ih =>
    intro reg acc
    by_cases h : isSenderMatchTarget resolve sender i.target
    · simp [dispatchGo, h, List.filter_cons, ih, List.append_assoc]
    · simp [dispatchGo, h, List.filter_cons, ih]

theorem isSenderMatchTarget_eq_spec (resolve : Resolver) (sender : Sendable)
    (i : ListenerEntry) :
    isSenderMatchTarget resolve sender i.target
      = matchesSenderSpec resolve sender i := by
  cases ht : i.target with
  | none => simp [isSenderMatchTarget, matchesSenderSpec, ht]
  | some t =>
    cases hres : getSender resolve t with
    | none => simp [isSenderMatchTarget, matchesSenderSpec, ht, hres]
    | some s => simp [isSenderMatchTarget, matchesSenderSpec, ht, hres]

/-- C9.  For every inbound Event, dispatch first snapshots the method's
listener list and then — regardless of how the invoked callbacks mutate
the registry (`mu` is universally quantified) — invokes, in registration
order, exactly the snapshot entries whose target is unset (wildcard) or
whose resolved identity equals the sender's identity. -/
theorem event_dispatch_snapshot (resolve : Resolver)
    (mu : Nat → ListenerRegistry → ListenerRegistry) (reg : ListenerRegistry)
    (m : String) (sender : Sendable) :
    (dispatchEvent resolve mu reg m sender).2
      = ((methodList reg m).filter
          (matchesSenderSpec resolve sender)).map (·.callback) := by
  rw [dispatchEvent, dispatchGo_invoked]
  rw [List.nil_append]
  congr 1
  apply List.filter_congr
  intro i _
  rw [isSenderMatchTarget_eq_spec]

theorem find?_eq_head?_filter {α : Type} (p : α → Bool) :
    ∀ l : List α, l.find? p = (l.filter p).head? := by
  intro l
  induction l with
  | nil => rfl
  | cons a rest ih =>
    rw [List.find?_cons, List.filter_cons]
    cases hpa : p a
    · show List.find? p rest = (List.filter p rest).head?
      exact ih
    · rfl

theorem lastGlobal_eq_globalEntry (entries : List HandlerEntry)
    (h : (entries.filter fun i => i.target.isNone).length ≤ 1) :
    lastGlobal entries = globalEntry entries := by
  rw [lastGlobal, globalEntry, find?_eq_head?_filter]
  cases hf : entries.filter fun i => i.target.isNone with
  | nil => rfl
  | cons g gs =>
    cases gs with
    | nil => simp
    | cons g2 gs2 =>
      exfalso
      rw [hf] at h
      simp only [List.length_cons] at h
      omega

theorem getHandlerForGo_eq (resolve : Resolver) (sender : Sendable) :
    ∀ (entries : List HandlerEntry) (acc : Option HandlerEntry),
      getHandlerForGo resolve sender entries acc
        = match firstScopedMatch resolve sender entries with
          | some h => some h
          | none =>
            match lastGlobal entries with
            | some g => some g
            | none => acc := by
  intro entries
  induction entries with
  | nil =>
    intro acc
    simp [getHandlerForGo, firstScopedMatch, lastGlobal]
  | cons item rest ih =>
    intro acc
    by_cases hg : item.target.isNone
    · have hsome : item.target.isSome = false := by
        cases ht : item.target
        · rfl
        · rw [ht] at hg; cases hg
      have h1 : firstScopedMatch resolve sender (item :: rest)
          = firstScopedMatch resolve sender rest := by
        rw [firstScopedMatch, List.find?_cons, hsome]
        rfl
      have h2 : lastGlobal (item :: rest)
          = some ((lastGlobal rest).getD item) := by
        rw [lastGlobal, List.filter_cons, if_pos hg, List.getLast?_cons,
          lastGlobal]
      simp only [getHandlerForGo, hg, if_true]
      rw [ih (some item), h1, h2]
      cases hf : firstScopedMatch resolve sender rest
      · cases hl : lastGlobal rest <;> simp [hl]
      · simp
    · have hgf : item.target.isNone = false := by
        cases hb : item.target.isNone
        · rfl
        · exact absurd hb hg
      by_cases hm : isSenderMatchTarget resolve sender item.target
      · have hsome : item.target.isSome = true := by
          cases ht : item.target
          · rw [ht] at hgf; cases hgf
          · rfl
        have h1 : firstScopedMatch resolve sender (item :: rest)
            = some item := by
          rw [firstScopedMatch, List.find?_cons]
          have hpred : (item.target.isSome
              && isSenderMatchTarget resolve sender item.target) = true := by
            simp [hsome, hm]
          rw [hpred]
        simp only [getHandlerForGo, hgf, Bool.false_eq_true, if_false, hm,
          if_true]
        rw [h1]
      · have h1 : firstScopedMatch resolve sender (item :: rest)
            = firstScopedMatch resolve sender rest := by
          rw [firstScopedMatch, List.find?_cons]
          have hmf : isSenderMatchTarget resolve sender item.target = false := by
            cases hb : isSenderMatchTarget resolve sender item.target
            · rfl
            · exact absurd hb hm
          rw [hmf, Bool.and_false]
          rfl
        have h2 : lastGlobal (item :: rest) = lastGlobal rest := by
          rw [lastGlobal, List.filter_cons, if_neg (by simp [hgf]), lastGlobal]
        simp only [getHandlerForGo, hgf, Bool.false_eq_true, if_false, hm,
          if_false]
        rw [ih acc, h1, h2]

/-- C5.  For every inbound Request, handler dispatch scans the method's
entries in registration order: the first target-scoped entry whose
resolved identity equals the sender's identity wins outright; if no scoped
entry matches, the global (target-less) entry — unique by the registration
invariant assumed here — is used if present; with no match at all, a
`ResponseError` with code `NotFound` carrying the request's id is sent
back to the sender. -/
theorem dispatch_request_priority (resolve : Resolver) (handlers : HandlerMap)
    (m : String) (sender : Sendable) (id : List Nat)
    (huniq : ((methodList handlers m).filter
        fun i => i.target.isNone).length ≤ 1) :
    handleRequestDispatch resolve handlers sender m id
      = match firstScopedMatch resolve sender (methodList handlers m) with
        | some h => .invoke h.callback
        | none =>
          match globalEntry (methodList handlers m) with
          | some g => .invoke g.callback
          | none =>
            .respondError sender.id RPC_RECEIVE_CHANNEL
              { id := id,
                error := { code := .notFound,
                           message := "method " ++ m ++ " not found" } } := by
  rw [handleRequestDispatch, getHandlerFor, getHandlerForGo_eq,
    lastGlobal_eq_globalEntry _ huniq]
  cases firstScopedMatch resolve sender (methodList handlers m)
  · cases globalEntry (methodList handlers m) <;> rfl
  · rfl

/-- Witness for `dispatch_request_priority`: a request for an unregistered
method produces the `NotFound` error response with the request's id. -/
theorem dispatch_request_priority_witness :
    (((methodList ([] : HandlerMap) "m").filter
        fun i => i.target.isNone).length ≤ 1)
    ∧ handleRequestDispatch resolveOne [] { id := 1 } "m" [7]
        = RequestOutcome.respondError 1 RPC_RECEIVE_CHANNEL
            { id := [7],
              error := { code := .notFound,
                         message := "method " ++ "m" ++ " not found" } } :=
  ⟨by decide,
    dispatch_request_priority resolveOne [] "m" { id := 1 } [7] (by decide)⟩

/-- C6.  `registerHandler` fails exactly when registering a global handler
for a method that already has a global entry, or a target-scoped handler
for a (method, resolved-target-identity) pair that already has one; a
conflicting registration leaves the registry unchanged; two registrations
for the same method under targets of distinct resolved identities both
succeed. -/
theorem registerHandler_conflict_rules (resolve : Resolver)
    (handlers : HandlerMap) (m : String) (cb : Nat) (t : Target) :
    ((registerHandler resolve handlers m none cb).1.isSome
       = (methodList handlers m).any fun i => i.target.isNone)
    ∧ ((registerHandler resolve handlers m (some t) cb).1.isSome
       = (methodList handlers m).any
           fun i => isTargetEqual resolve (some t) i.target)
    ∧ (∀ o : Option Target,
         (registerHandler resolve handlers m o cb).1.isSome = true →
           (registerHandler resolve handlers m o cb).2 = handlers)
    ∧ (∀ (A B : Target) (sa sb : Sendable) (cbA cbB : Nat),
         getSender resolve A = some sa → getSender resolve B = some sb →
         sa.id ≠ sb.id →
         (registerHandler resolve [] m (some A) cbA).1 = none
         ∧ (registerHandler resolve
             (registerHandler resolve [] m (some A) cbA).2
             m (some B) cbB).1 = none) := by
  refine ⟨?_, ?_, ?_, ?_⟩
  · by_cases h : (methodList handlers m).any fun i => i.target.isNone
    · simp [registerHandler, h]
    · simp [registerHandler, h]
  · by_cases h : (methodList handlers m).any
        fun i => isTargetEqual resolve (some t) i.target
    · simp [registerHandler, h]
    · simp [registerHandler, h]
  · intro o
    cases o with
    | none =>
      by_cases h : (methodList handlers m).any fun i => i.target.isNone
      · simp [registerHandler, h]
      · simp [registerHandler, h]
    | some u =>
      by_cases h : (methodList handlers m).any
          fun i => isTargetEqual resolve (some u) i.target
      · simp [registerHandler, h]
      · simp [registerHandler, h]
  · intro A B sa sb cbA cbB hA hB hne
    have hfirst : registerHandler resolve [] m (some A) cbA
        = (none, [(m, [{ target := some A, callback := cbA }])]) := by
      simp [registerHandler, methodList, insertMethod]
    refine ⟨by rw [hfirst], ?_⟩
    rw [hfirst]
    have hml : methodList
        ([(m, [{ target := some A, callback := cbA }])] : HandlerMap) m
        = [{ target := some A, callback := cbA }] := by
      simp [methodList]
    have heq : isTargetEqual resolve (some B) (some A) = false := by
      rw [isTargetEqual, hA, hB]
      exact beq_eq_false_iff_ne.mpr fun h => hne (h ▸ rfl)
    simp [registerHandler, hml, heq]

/-- A resolver under which every target resolves to the endpoint whose
identity is the target itself. -/
def resolveIdent : Resolver := fun t => .ok { id := t }

/-- Witness for `registerHandler_conflict_rules`: two scoped registrations
for the same method under targets resolving to distinct identities both
succeed. -/
theorem registerHandler_conflict_rules_witness :
    getSender resolveIdent 1 = some { id := 1 }
    ∧ getSender resolveIdent 2 = some { id := 2 }
    ∧ ({ id := 1 } : Sendable).id ≠ ({ id := 2 } : Sendable).id
    ∧ (registerHandler resolveIdent [] "m" (some 1) 10).1 = none
    ∧ (registerHandler resolveIdent
        (registerHandler resolveIdent [] "m" (some 1) 10).2
        "m" (some 2) 20).1 = none := by
  refine ⟨rfl, rfl, by decide, ?_⟩
  exact (registerHandler_conflict_rules resolveIdent
    [] "m" 0 0).2.2.2 1 2 { id := 1 } { id := 2 } 10 20 rfl rfl (by decide)

/-- C10.  A non-null target that fails to resolve compares unequal to
every target, itself included; consequently `off`, `unregisterHandler`,
and `removeAllListener` with such a target remove nothing, and the
duplicate-registration check in `registerHandler` never fires for it (the
registration succeeds and appends the entry). -/
theorem unresolvable_target_never_equal (resolve : Resolver) (t : Target)
    (hres : getSender resolve t = none) :
    isTargetEqual resolve (some t) (some t) = false
    ∧ (∀ b : Option Target, isTargetEqual resolve (some t) b = false)
    ∧ (∀ b : Option Target, isTargetEqual resolve b (some t) = false)
    ∧ (∀ (reg : ListenerRegistry) (m : String) (cb : Nat),
         off resolve reg m cb (some t) = (false, reg))
    ∧ (∀ (handlers : HandlerMap) (m : String),
         unregisterHandler resolve handlers m (some t) = (false, handlers))
    ∧ (∀ reg : ListenerRegistry, removeAllListener resolve reg (some t) = reg)
    ∧ (∀ (handlers : HandlerMap) (m : String) (cb : Nat),
         registerHandler resolve handlers m (some t) cb
           = (none, insertMethod handlers m
               { target := some t, callback := cb })) := by
  have hL : ∀ b : Option Target, isTargetEqual resolve (some t) b = false := by
    intro b
    cases b with
    | none => rfl
    | some y => rw [isTargetEqual, hres]
  have hR : ∀ b : Option Target, isTargetEqual resolve b (some t) = false := by
    intro b
    cases b with
    | none => rfl
    | some y =>
      rw [isTargetEqual, hres]
      cases getSender resolve y <;> rfl
  refine ⟨hL (some t), hL, hR, ?_, ?_, ?_, ?_⟩
  · intro reg m cb
    have hidx : ((methodList reg m).findIdx? fun i =>
        i.callback == cb && isTargetEqual resolve i.target (some t)) = none :=
      List.findIdx?_eq_none_iff.mpr fun i _ => by
        rw [hR i.target, Bool.and_false]
    rw [off, hidx]
  · intro handlers m
    have hidx : ((methodList handlers m).findIdx? fun i =>
        isTargetEqual resolve i.target (some t)) = none :=
      List.findIdx?_eq_none_iff.mpr fun i _ => hR i.target
    rw [unregisterHandler, hidx]
  · intro reg
    rw [removeAllListener]
    have : ∀ e : String × List ListenerEntry,
        (fun e : String × List ListenerEntry =>
          (e.1, e.2.filter fun l => !isTargetEqual resolve (some t) l.target)) e
        = e := by
      intro e
      have hf : e.2.filter (fun l => !isTargetEqual resolve (some t) l.target)
          = e.2 :=
        List.filter_eq_self.mpr fun a _ => by rw [hL a.target]; rfl
      simp [hf]
    calc reg.map _ = reg.map id := List.map_congr_left fun e _ => this e
      _ = reg := List.map_id reg
  · intro handlers m cb
    have h2 : ((methodList handlers m).any
        fun i => isTargetEqual resolve (some t) i.target) = false := by
      rw [List.any_eq_false]
      intro i _
      rw [hL i.target]
      exact fun h => nomatch h
    simp [registerHandler, h2]

/-- Witness for `unresolvable_target_never_equal`: under a resolver that
throws for every target, a released target is not even equal to itself and
`off` removes nothing. -/
theorem unresolvable_target_never_equal_witness :
    getSender (fun _ => .throws) 5 = none
    ∧ isTargetEqual (fun _ => .throws) (some 5) (some 5) = false
    ∧ off (fun _ => .throws)
        [("e", [{ target := some 5, callback := 3 }])] "e" 3 (some 5)
        = (false, [("e", [{ target := some 5, callback := 3 }])]) :=
  ⟨rfl, (unresolvable_target_never_equal (fun _ => .throws) 5 rfl).1,
    (unresolvable_target_never_equal (fun _ => .throws) 5 rfl).2.2.2.1
      [("e", [{ target := some 5, callback := 3 }])] "e" 3⟩

/- ### C7: distinctness of request ids -/

theorem numeral_length_pos (n : Nat) : 0 < (numeral n).length := by
  rw [numeral]
  by_cases h : n = 0
  · simp [h]
  · simp only [h, if_false, List.length_reverse]
    exact List.length_pos.mpr (Nat.digits_ne_nil_iff_ne_zero.mpr h)

theorem numeral_length_mono {a b : Nat} (h : a ≤ b) :
    (numeral a).length ≤ (numeral b).length := by
  by_cases ha : a = 0
  · subst ha
    have : (numeral 0).length = 1 := by simp [numeral]
    rw [this]
    exact numeral_length_pos b
  · have hb : b ≠ 0 := fun hb => ha (Nat.le_zero.mp (hb ▸ h))
    rw [numeral, numeral, if_neg ha, if_neg hb, List.length_reverse,
      List.length_reverse]
    exact Nat.le_digits_len_le 10 a b h

theorem numeral_lt_of_length_lt {a b : Nat}
    (h : (numeral a).length < (numeral b).length) : a < b := by
  by_contra hab
  exact absurd (numeral_length_mono (Nat.le_of_not_lt hab)) (Nat.not_le.mpr h)

theorem numeral_injective {a b : Nat} (h : numeral a = numeral b) : a = b := by
  by_cases ha : a = 0 <;> by_cases hb : b = 0
  · rw [ha, hb]
  · exfalso
    rw [numeral, numeral, if_pos ha, if_neg hb] at h
    have hd : Nat.digits 10 b = [0] := by
      rw [← List.reverse_inj]
      simpa using h.symm
    have : b = 0 := by
      have := Nat.ofDigits_digits 10 b
      rw [hd, Nat.ofDigits_singleton] at this
      exact this.symm
    exact hb this
  · exfalso
    rw [numeral, numeral, if_neg ha, if_pos hb] at h
    have hd : Nat.digits 10 a = [0] := by
      rw [← List.reverse_inj]
      simpa using h
    have : a = 0 := by
      have := Nat.ofDigits_digits 10 a
      rw [hd, Nat.ofDigits_singleton] at this
      exact this.symm
    exact ha this
  · rw [numeral, numeral, if_neg ha, if_neg hb] at h
    exact Nat.digits_inj_iff.mp (List.reverse_inj.mp h)

/-- The string `${u1}${t1}` cannot coincide with `${u2}${t2}` when the
counter strictly increased and time did not decrease. -/
theorem numeral_append_ne {u1 u2 t1 t2 : Nat} (hu : u1 < u2) (ht : t1 ≤ t2) :
    numeral u1 ++ numeral t1 ≠ numeral u2 ++ numeral t2 := by
  intro heq
  have hlen : (numeral u1).length + (numeral t1).length
      = (numeral u2).length + (numeral t2).length := by
    have := congrArg List.length heq
    simpa using this
  have hule : (numeral u1).length ≤ (numeral u2).length :=
    numeral_length_mono (Nat.le_of_lt hu)
  rcases Nat.lt_or_ge (numeral u1).length (numeral u2).length with hlt | hge
  · have ht2len : (numeral t2).length < (numeral t1).length := by omega
    have : t2 < t1 := numeral_lt_of_length_lt ht2len
    omega
  · have hlene : (numeral u1).length = (numeral u2).length :=
      Nat.le_antisymm hule hge
    have := List.append_inj heq hlene
    exact absurd (numeral_injective this.1) (Nat.ne_of_lt hu)

/-- The value of `this.uid` after `k` calls, starting from `u0`
(each call runs `this.uid = (this.uid + 1) % Number.MAX_SAFE_INTEGER`). -/
def uidSeq (u0 : Nat) : Nat → Nat
  | 0 => u0
  | k + 1 => (uidSeq u0 k + 1) % maxSafeInteger

/-- The id string (digit-list model) allocated to the `k`-th call when the
`k`-th call happens at time `t k`. -/
def idOfCall (u0 : Nat) (t : Nat → Nat) (k : Nat) : List Nat :=
  (getId (uidSeq u0 k) (t k)).2

theorem uidSeq_eq (u0 : Nat) : ∀ k, u0 + k < maxSafeInteger →
    uidSeq u0 k = u0 + k := by
  intro k
  induction k with
  | zero => intro _; rfl
  | succ n ih =>
    intro h
    have hn : u0 + n < maxSafeInteger := by omega
    rw [uidSeq, ih hn]
    exact Nat.mod_eq_of_lt (by omega)

/-- C7.  Ids issued by one engine instance are pairwise distinct among
concurrently pending calls: for calls `i < j` issued at non-decreasing
times, as long as the `uid` counter has not wrapped around
`Number.MAX_SAFE_INTEGER` within the window, the two id strings (counter
numeral concatenated with the time numeral) differ. -/
theorem pending_ids_distinct (u0 : Nat) (t : Nat → Nat) (i j : Nat)
    (hij : i < j) (hmono : ∀ a b : Nat, a ≤ b → t a ≤ t b)
    (hwin : u0 + j + 1 < maxSafeInteger) :
    idOfCall u0 t i ≠ idOfCall u0 t j := by
  have hi1 : uidSeq u0 (i + 1) = u0 + (i + 1) :=
    uidSeq_eq u0 (i + 1) (by omega)
  have hj1 : uidSeq u0 (j + 1) = u0 + (j + 1) :=
    uidSeq_eq u0 (j + 1) (by omega)
  have hidi : idOfCall u0 t i
      = numeral (uidSeq u0 (i + 1)) ++ numeral (t i) := rfl
  have hidj : idOfCall u0 t j
      = numeral (uidSeq u0 (j + 1)) ++ numeral (t j) := rfl
  rw [hidi, hidj, hi1, hj1]
  exact numeral_append_ne (by omega) (hmono i j (Nat.le_of_lt hij))

/-- Witness for `pending_ids_distinct` at two concrete consecutive
calls. -/
theorem pending_ids_distinct_witness :
    (0 : Nat) < 1
    ∧ (0 : Nat) + 1 + 1 < maxSafeInteger
    ∧ idOfCall 0 (fun _ => 12) 0 ≠ idOfCall 0 (fun _ => 12) 1 :=
  ⟨by decide, by decide,
    pending_ids_distinct 0 (fun _ => 12) 0 1 (by decide)
      (fun a b _ => Nat.le_refl 12) (by decide)⟩

/- ### C8: codec failure containment -/

/-- A payload arriving on the receive channel: either well-formed JSON
(carrying the response's correlation id) or malformed text. -/
inductive WirePayload where
  | wellFormed (id : List Nat)
  | malformed
deriving DecidableEq, Repr

/-- `JSON.parse`: throws (models as `Except.error`) on malformed input. -/
def JSONParse : WirePayload → Except String (List Nat)
  | .wellFormed id => .ok id
  | .malformed => .error "SyntaxError: unexpected token"

/-- `AbstractJSONRPC.beforeReceive` (lines 582-584): `JSON.parse(payload)`
with *no* try/catch — a parse failure propagates to the caller. -/
def beforeReceive (w : WirePayload) : Except String (List Nat) :=
  JSONParse w

/-- `AbstractJSONRPC.handleResponse` (lines 452-454), for the pending call
modelled by `s`: parse the payload, then run `handleRPCResponse`
(`receiveResponse` in the per-call model). -/
def handleResponse (s : CallState) (w : WirePayload) :
    Except String CallState :=
  (beforeReceive w).map fun _id => receiveResponse s

/-- An outbound value; `circular = true` models a value that
`JSON.stringify` rejects. -/
structure OutValue where
  circular : Bool
deriving DecidableEq, Repr

/-- `JSON.stringify`: throws on circular structures. -/
def JSONStringify (v : OutValue) : Except String String :=
  if v.circular then .error "TypeError: circular structure"
  else .ok "serialized"

/-- Effect of one `beforeSend` invocation. -/
inductive SendPathEffect where
  | sent (dest : SendableId) (channel : String) (wire : String)
  | logSerializeError
deriving DecidableEq, Repr

/-- `AbstractJSONRPC.beforeSend` (lines 586-592): `JSON.stringify` and
`sender.send` run inside try/catch; a failure is logged via
`console.error` and the message dropped — `beforeSend` itself never
throws, which is why its model is a total function rather than
`Except`. -/
def beforeSend (sender : Sendable) (channel : String) (v : OutValue) :
    SendPathEffect :=
  match JSONStringify v with
  | .ok wire => .sent sender.id channel wire
  | .error _ => .logSerializeError

/-- C8 counterexample.  Deserializing a malformed inbound payload is *not*
caught: `beforeReceive` wraps `JSON.parse` in no try/catch, so the parse
exception propagates out of `handleResponse` (the receive path), contrary
to the claim that codec failures never escape the receive path. -/
theorem malformed_payload_propagates :
    handleResponse (initCall true) WirePayload.malformed
      = Except.error "SyntaxError: unexpected token" := rfl

/-- C8 (amended).  Codec failure containment is asymmetric: on the send
path, serializing an unserializable outbound payload is caught and logged
and the message dropped (`beforeSend` is total and never propagates an
exception), while on the receive path a malformed payload makes
`handleResponse` propagate the parse exception; a well-formed payload is
processed normally. -/
theorem codec_failure_paths (sender : Sendable) (channel : String)
    (v : OutValue) (s : CallState) :
    (v.circular = true →
      beforeSend sender channel v = .logSerializeError)
    ∧ (v.circular = false →
      beforeSend sender channel v = .sent sender.id channel "serialized")
    ∧ handleResponse s .malformed
        = Except.error "SyntaxError: unexpected token"
    ∧ (∀ id, handleResponse s (.wellFormed id)
        = Except.ok (receiveResponse s)) := by
  refine ⟨?_, ?_, rfl, fun id => rfl⟩
  · intro h
    simp [beforeSend, JSONStringify, h]
  · intro h
    simp [beforeSend, JSONStringify, h]

/-- Witness for `codec_failure_paths`: a concrete circular payload is
logged and dropped on the send path. -/
theorem codec_failure_paths_witness :
    ({ circular := true } : OutValue).circular = true
    ∧ beforeSend { id := 1 } "ch" { circular := true }
        = SendPathEffect.logSerializeError :=
  ⟨rfl,
    (codec_failure_paths { id := 1 } "ch" { circular := true }
      (initCall true)).1 rfl⟩

end JSONRPC
